import Mathlib

/-!
# Verification of the NVPTX OpenMP code generator (CGOpenMPRuntimeNVPTX)

A shallow embedding of the code-generation logic of
`src/lib/CodeGen/CGOpenMPRuntimeNVPTX.cpp` together with proofs of the
behavioural claims made by the specification.  Every definition in the
`NVPTX` namespace is translated directly from the corresponding C++
function of the source file; line references are given in the doc
comments.
-/

namespace NVPTX

/-! ## Fixed constants (enum DATA_SHARING_SIZES, lines 88-104) -/

/-- `DS_Max_Worker_Threads`: maximum number of workers in a kernel. -/
def DS_Max_Worker_Threads : Nat := 992

/-- `DS_Slot_Size`: size reserved for data in a shared memory slot. -/
def DS_Slot_Size : Nat := 4

/-- `DS_Max_Worker_Warp_Size`: maximum number of threads in a worker warp. -/
def DS_Max_Worker_Warp_Size : Nat := 32

/-- `DS_Worker_Warp_Slot_Size = DS_Max_Worker_Warp_Size * DS_Slot_Size`. -/
def DS_Worker_Warp_Slot_Size : Nat := DS_Max_Worker_Warp_Size * DS_Slot_Size

/-! ## 32-bit machine arithmetic

The generated IR computes with `i32` values.  We model an `i32` as a `Nat`
below `2^32`; wrap-around subtraction and bitwise complement are written
out explicitly. -/

/-- The modulus of 32-bit arithmetic. -/
def U32 : Nat := 2 ^ 32

/-- 32-bit truncating subtraction (`CreateSub` wraps modulo `2^32`). -/
def sub32 (a b : Nat) : Nat := (a + (U32 - b % U32)) % U32

/-- 32-bit bitwise complement (`CreateNot`): xor with the all-ones word. -/
def not32 (x : Nat) : Nat := x ^^^ (U32 - 1)

/-! ## Thread-id helper functions

* `getMasterThreadID` (lines 576-585):
  `master_tid = (NumThreads - 1) & ~(WarpSize - 1)`.
* `getTeamThreadId` (lines 597-603):
  `team_tid = threadId & (master_tid - 1)`.
* `getThreadLimit` (lines 563-567): `thread_limit = NumThreads - WarpSize`.
* `getNVPTXThreadWarpID` (lines 461-466): `tid & 0x1f`.
-/

/-- `getMasterThreadID`: first lane of the last warp,
`(n-1) & ~(w-1)` where `n` is the block size and `w` the warp size. -/
def masterThreadID (n w : Nat) : Nat := sub32 n 1 &&& not32 (sub32 w 1)

/-- `getTeamThreadId`: `threadId & (masterThreadID - 1)`. -/
def teamThreadId (n w tid : Nat) : Nat := tid &&& sub32 (masterThreadID n w) 1

/-- `getThreadLimit`: `NumThreads - WarpSize`. -/
def threadLimit (n w : Nat) : Nat := sub32 n w

/-- `getNVPTXThreadWarpID`: thread position inside its warp,
`tid & DS_Max_Worker_Warp_Size_Log2_Mask` (mask `0x1f`). -/
def threadWarpID (tid : Nat) : Nat := tid &&& 31

/-! ### Bit-level characterisation of the master-thread-id mask -/

/-! ## Kernel entry partition

`createKernelInitializerFunction` (lines 380-438) splits the block's
threads: `tid < thread_limit` enters the worker loop (lines 415-422),
otherwise `tid == masterThreadID` makes the function return 0 (lines
424-432), and every other thread returns the initial value 1 (line 413).
`InitializeEntryPoint` (lines 2522-2543) branches into the sequential
body exactly when the returned value is 0, and to the entry's exit block
otherwise. -/

/-- The role a thread is assigned at kernel entry. -/
inductive KernelRole
  | worker
  | master
  | parked
deriving DecidableEq

/-- The branch taken inside `__omp_kernel_initialization`
(`createKernelInitializerFunction`, lines 415-432). -/
def kernelInitRole (n w tid : Nat) : KernelRole :=
  if tid < threadLimit n w then .worker
  else if tid = masterThreadID n w then .master
  else .parked

/-- The value returned by `__omp_kernel_initialization`: initialized to
1 (line 413) and overwritten with 0 on the master path (line 431). -/
def kernelInitRet (n w tid : Nat) : Nat :=
  if kernelInitRole n w tid = .master then 0 else 1

/-- `InitializeEntryPoint` (lines 2528-2542): the kernel continues into
the sequential body iff the initializer returned 0. -/
def entryContinuesSequential (n w tid : Nat) : Bool :=
  kernelInitRet n w tid == 0

/-! ## Worker loop state machine

`emitWorkerLoop` (lines 640-735).  Blocks: `.await.work` barrier-waits
(line 665) and calls `__kmpc_kernel_parallel(&work_fn)` (lines 674-677);
a null pointer branches to `.exit` (lines 680-683); `.select.workers`
tests the active flag (lines 686-689); `.execute.parallel` linearly
matches the pointer against each function in `Work` and invokes the
match with the master thread id as argument (lines 695-718);
`.terminate.parallel` calls `__kmpc_kernel_end_parallel` (lines
721-725); `.barrier.parallel` barriers again and branches back to
`.await.work` (lines 727-731). -/

/-- Observable events of one worker lane. -/
inductive WorkerEvent
  | barrier
  | readWork
  | invoke (fn : Nat) (arg : Nat)
  | endParallel
deriving DecidableEq

/-- Worker control state: in the loop awaiting work, or exited for good. -/
inductive WorkerState
  | await
  | terminated
deriving DecidableEq

/-- What one `__kmpc_kernel_parallel` call reports: the work-function
pointer written to `work_fn` (`none` models null) and the returned
active flag (`exec_status`). -/
structure WorkerInput where
  workFn : Option Nat
  isActive : Bool

/-- The `.execute.fn`/`.check.next` chain (lines 695-718): try each
statically known outlined function in order; on the first pointer match
invoke it, passing the master thread id as source lane. -/
def matchAndInvoke (work : List Nat) (f master : Nat) : List WorkerEvent :=
  match work with
  | [] => []
  | w :: ws => if f = w then [.invoke w master] else matchAndInvoke ws f master

/-- One pass of the worker loop body starting at `.await.work`,
returning the events performed and the state the lane ends up in. -/
def workerIteration (work : List Nat) (master : Nat) (inp : WorkerInput) :
    List WorkerEvent × WorkerState :=
  match inp.workFn with
  | none => ([.barrier, .readWork], .terminated)
  | some f =>
      if inp.isActive then
        ([.barrier, .readWork] ++ matchAndInvoke work f master ++
          [.endParallel, .barrier], .await)
      else
        ([.barrier, .readWork, .barrier], .await)

/-- Run the worker loop over a stream of dispatch inputs.  The `.exit`
block is terminal: a terminated worker performs nothing further. -/
def workerRun (work : List Nat) (master : Nat) :
    List WorkerInput → WorkerState → List WorkerEvent × WorkerState
  | _, .terminated => ([], .terminated)
  | [], .await => ([], .await)
  | i :: is, .await =>
      let r := workerIteration work master i
      let r' := workerRun work master is r.2
      (r.1 ++ r'.1, r'.2)

/-! ## The per-lane ParallelismLevel counter

`getParallelismLevelLValue` (lines 114-137) places the counter in a
block-shared array `__openmp_nvptx_parallelism_levels` of
`DS_Max_Worker_Threads` zero-initialized 32-bit slots, indexed by the
intra-block thread id.  `increaseParallelismLevel` and
`decreaseParallelismLevel` (lines 149-168) add and subtract
`IsSimd ? 10 : 1`.  The outlined body of a parallel region is emitted as
`increase; body; decrease` (`CodeGenWithDataSharing`, lines 1327-1332),
and of a simd region with `IsSimd = true` (lines 1363-1368); the body is
a structured block with a single entry at the top and single exit at the
bottom (`CGOpenMPRegionInfo::EmitBody`, lines 1276-1287). -/

/-- `unsigned Increment = IsSimd ? 10 : 1` (lines 151, 162). -/
def parallelismIncrement (isSimd : Bool) : Int := if isSimd then 10 else 1

/-- The zero initializer of `__openmp_nvptx_parallelism_levels`
(lines 122-128): every lane's counter starts at 0. -/
def parallelismLevelInit : Fin DS_Max_Worker_Threads → Int := fun _ => 0

/-- Source-level structure of the code inside one context: straight-line
code, branching control flow, sequencing, and nested parallel/simd
regions. -/
inductive RegionTree
  | skip
  | branch (c : Nat) (t e : RegionTree)
  | seq (a b : RegionTree)
  | region (isSimd : Bool) (body : RegionTree)

/-- Emitted operations touching the ParallelismLevel counter. -/
inductive LevelProg
  | nop
  | inc (amount : Int)
  | dec (amount : Int)
  | seq (a b : LevelProg)
  | branch (c : Nat) (t e : LevelProg)

/-- Code emission for the counter updates: a region body is bracketed by
`increaseParallelismLevel` and `decreaseParallelismLevel` with the same
`IsSimd` flag (`CodeGenWithDataSharing`, lines 1327-1332 and 1363-1368);
all other constructs leave the counter alone. -/
def emitLevelCode : RegionTree → LevelProg
  | .skip => .nop
  | .branch c t e => .branch c (emitLevelCode t) (emitLevelCode e)
  | .seq a b => .seq (emitLevelCode a) (emitLevelCode b)
  | .region isSimd body =>
      .seq (.inc (parallelismIncrement isSimd))
        (.seq (emitLevelCode body) (.dec (parallelismIncrement isSimd)))

/-- Run the emitted counter operations on one lane's counter, resolving
each runtime branch through the environment `env`. -/
def runLevelProg (env : Nat → Bool) : LevelProg → Int → Int
  | .nop, l => l
  | .inc a, l => l + a
  | .dec a, l => l - a
  | .seq p q, l => runLevelProg env q (runLevelProg env p l)
  | .branch c t e, l => if env c then runLevelProg env t l else runLevelProg env e l

/-! ## Parallelism Level Classifier

Static state: `IsOrphaned` and `ParallelNestingLevel` (header, lines
283-285; predicates `InL0`/`InL1`, cpp lines 1389-1399). -/

/-- The static nesting information tracked while outlining. -/
structure StaticContext where
  isOrphaned : Bool
  parallelNestingLevel : Int
deriving DecidableEq

/-- `CGOpenMPRuntimeNVPTX::InL0` (lines 1389-1391). -/
def InL0 (st : StaticContext) : Bool :=
  !st.isOrphaned && st.parallelNestingLevel == 0

/-- `CGOpenMPRuntimeNVPTX::InL1` (lines 1393-1395). -/
def InL1 (st : StaticContext) : Bool :=
  !st.isOrphaned && st.parallelNestingLevel == 1

/-- The three sections that `emitParallelismLevelCode` may emit. -/
inductive LevelSlot
  | level0
  | level1
  | sequential
deriving DecidableEq

/-- The result of `emitParallelismLevelCode`: for each of the three
sections, `none` when the section is not emitted at all, and otherwise
the flag saying whether a runtime guard was emitted in front of it,
together with the section's contents. -/
structure Dispatch (α : Type) where
  level0 : Option (Bool × α)
  level1 : Option (Bool × α)
  sequential : Option (Bool × α)
deriving DecidableEq

/-- Access a slot of an emitted dispatch. -/
def Dispatch.get (d : Dispatch α) : LevelSlot → Option (Bool × α)
  | .level0 => d.level0
  | .level1 => d.level1
  | .sequential => d.sequential

/-- `emitParallelismLevelCode` (lines 2069-2160).  `OnlyInL0`,
`OnlyInL1` and `OnlySequential` are the static flags of lines 2079-2081;
each section is emitted under the conditions of lines 2100, 2123 and
2145, and its runtime guard under the conditions of lines 2105, 2128 and
2149. -/
def emitParallelismLevelCode (st : StaticContext) (Level0 Level1 Sequential : α) :
    Dispatch α :=
  let OnlyInL0 := InL0 st
  let OnlyInL1 := InL1 st
  let OnlySequential := !st.isOrphaned && !InL0 st && !InL1 st
  { level0 :=
      if !OnlyInL1 && !OnlySequential then some (!OnlyInL0, Level0) else none
    level1 :=
      if !OnlyInL0 && !OnlySequential then some (!OnlyInL1, Level1) else none
    sequential :=
      if !OnlyInL0 && !OnlyInL1 then some (!OnlySequential, Sequential) else none }

/-- The runtime state of one lane arriving at the emitted dispatch. -/
structure Lane where
  tid : Nat
  masterTid : Nat
  /-- The lane's runtime `ParallelismLevel` counter value. -/
  level : Int
deriving DecidableEq

/-- Fall-through execution starting at the sequential section: its
runtime guard is `ParallelismLevel > 1` (`ICmpSGT`, lines 2150-2152);
when the guard fails control reaches `.after.parallel` directly. -/
def execFromSequential (d : Dispatch α) (ln : Lane) : List (LevelSlot × α) :=
  match d.sequential with
  | some (guarded, a) =>
      if guarded && !(decide (1 < ln.level)) then [] else [(.sequential, a)]
  | none => []

/-- Fall-through execution starting at the Level1 section: its runtime
guard is `ParallelismLevel == 1` (lines 2130-2132); the section branches
to `.after.parallel` when done. -/
def execFromLevel1 (d : Dispatch α) (ln : Lane) : List (LevelSlot × α) :=
  match d.level1 with
  | some (guarded, a) =>
      if guarded && !(decide (ln.level = 1)) then execFromSequential d ln
      else [(.level1, a)]
  | none => execFromSequential d ln

/-- The blocks a lane executes when running the emitted dispatch: the
Level0 guard is `threadId == masterThreadId` (lines 2107-2110), each
executed section branches to the single `.after.parallel` continuation
(lines 2097, 2117, 2139, 2159). -/
def executedBlocks (d : Dispatch α) (ln : Lane) : List (LevelSlot × α) :=
  match d.level0 with
  | some (guarded, a) =>
      if guarded && !(decide (ln.tid = ln.masterTid)) then execFromLevel1 d ln
      else [(.level0, a)]
  | none => execFromLevel1 d ln

/-- The membership condition that each slot's block is meant to encode:
Level0 runs for the master lane, Level1 when the static nesting level is
1, Sequential when it is neither 0 nor 1. -/
def slotStaticLevel (lvl : Int) : LevelSlot → Prop
  | .level0 => lvl = 0
  | .level1 => lvl = 1
  | .sequential => lvl ≠ 0 ∧ lvl ≠ 1

/-- The static information alone proves membership at a slot. -/
def staticProves (st : StaticContext) (s : LevelSlot) : Prop :=
  st.isOrphaned = false ∧ slotStaticLevel st.parallelNestingLevel s

/-- The static information alone disproves membership at a slot. -/
def staticDisproves (st : StaticContext) (s : LevelSlot) : Prop :=
  st.isOrphaned = false ∧ ¬ slotStaticLevel st.parallelNestingLevel s

/-! ## Data Sharing Planner

`createDataSharingInfo` (lines 1414-1548).  The captures of every
parallel/simd region of the enclosing context are scanned in order
(lines 1478-1539); VLA and by-copy captures reach `assert` statements
whose condition is a string literal — a non-null pointer, hence always
true — and are then skipped by `continue` (lines 1494-1503); `this` is
represented by a null variable (lines 1497-1499); ordinary captures are
classified by the shape of the instruction produced by
`GetAddrOfLocalVar` (lines 1514-1519); duplicates are filtered through
`AlreadySharedDecls` (lines 1522-1526); each added capture contributes
one field to the master record and one 32-element array field to the
warp record (lines 1529-1538). -/

/-- Types as far as the planner's layout synthesis is concerned. -/
inductive Ty
  | int
  | char
  | ptr (t : Ty)
  | array (t : Ty) (n : Nat)
deriving DecidableEq

/-- `DataSharingInfo::DataSharingType`. -/
inductive DataSharingType
  | DST_Val
  | DST_Ref
  | DST_Cast
deriving DecidableEq

/-- The shape of the instruction `GetAddrOfLocalVar` returns for a
captured variable (inspected at lines 1514-1519). -/
inductive AddrShape
  | alloca
  | load
  | bitcast
deriving DecidableEq

/-- One front-end capture of a region, as the planner's loop sees it. -/
inductive Capture
  | vla
  | thisCapture (ty : Ty)
  | byCopy
  | var (v : Nat) (shape : AddrShape) (ty : Ty)
deriving DecidableEq

/-- An entry of `DataSharingInfo::CapturesValues` (`Info.add(CurVD, DST)`,
line 1527) together with the capture-init expression type used for the
layout field (line 1529). `ident = none` is the source's null variable
standing for `this`. -/
structure CaptureDescriptor where
  ident : Option Nat
  dst : DataSharingType
  elemTy : Ty
deriving DecidableEq

/-- The layout field synthesized for a capture: pointer-typed when the
capture is shared by reference (lines 1530-1531). -/
def pointerizeField (d : CaptureDescriptor) : Ty :=
  if d.dst = .DST_Ref then .ptr d.elemTy else d.elemTy

/-- The planner's running state: `AlreadySharedDecls`, the
`CapturesValues` list, and the fields appended so far to the master and
warp records. -/
structure PlannerState where
  alreadyShared : List (Option Nat)
  capturesValues : List CaptureDescriptor
  masterFields : List Ty
  warpFields : List Ty
deriving DecidableEq

/-- The empty planner state at the start of `createDataSharingInfo`. -/
def plannerInit : PlannerState := ⟨[], [], [], []⟩

/-- A C++ `assert(cond)`: aborts code generation when `cond` is false. -/
def cxxAssert (cond : Bool) : Option Unit := if cond then some () else none

/-- The condition of `assert("...")` at lines 1495 and 1501: a string
literal converts to a non-null pointer, which is truthy, so this assert
can never fire. -/
def stringLiteralCond : Bool := true

/-- Classification of a variable capture from the address-instruction
shape (lines 1514-1519): a load means the storage lives elsewhere
(`DST_Ref`), a bitcast means a typed view over other storage
(`DST_Cast`), otherwise the variable's own alloca is shared
(`DST_Val`). -/
def classifyShape : AddrShape → DataSharingType
  | .load => .DST_Ref
  | .bitcast => .DST_Cast
  | .alloca => .DST_Val

/-- Add one classified capture unless its identity was already shared
(lines 1522-1538). -/
def addCapture (st : PlannerState) (d : CaptureDescriptor) : PlannerState :=
  if d.ident ∈ st.alreadyShared then st
  else
    { alreadyShared := d.ident :: st.alreadyShared
      capturesValues := st.capturesValues ++ [d]
      masterFields := st.masterFields ++ [pointerizeField d]
      warpFields := st.warpFields ++
        [.array (pointerizeField d) DS_Max_Worker_Warp_Size] }

/-- Process one capture of the loop body (lines 1489-1538): unsupported
kinds pass their (vacuous) assert and are skipped; `this` is added under
the null identity with `DST_Val`; an ordinary variable is classified by
its address shape. -/
def processCapture (st : PlannerState) (c : Capture) : Option PlannerState :=
  match c with
  | .vla => do
      let _ ← cxxAssert stringLiteralCond
      pure st
  | .thisCapture ty => pure (addCapture st ⟨none, .DST_Val, ty⟩)
  | .byCopy => do
      let _ ← cxxAssert stringLiteralCond
      pure st
  | .var v shape ty => pure (addCapture st ⟨some v, classifyShape shape, ty⟩)

/-- Process the capture list of one captured statement. -/
def processCaptures (st : PlannerState) : List Capture → Option PlannerState
  | [] => some st
  | c :: cs => do processCaptures (← processCapture st c) cs

/-- Process the collected captured statements of all parallel/simd
regions of the context, in order (outer loop at line 1478). -/
def processRegions (st : PlannerState) : List (List Capture) → Option PlannerState
  | [] => some st
  | cs :: rest => do processRegions (← processCaptures st cs) rest

/-- `createDataSharingInfo`: run the planner over the regions of one
enclosing context. -/
def createDataSharingInfo (css : List (List Capture)) : Option PlannerState :=
  processRegions plannerInit css

/-- The descriptor a capture would contribute, ignoring deduplication
(`none` for the skipped unsupported kinds). -/
def handledDescriptor : Capture → Option CaptureDescriptor
  | .vla => none
  | .byCopy => none
  | .thisCapture ty => some ⟨none, .DST_Val, ty⟩
  | .var v shape ty => some ⟨some v, classifyShape shape, ty⟩

/-- The undeduplicated stream of descriptors of all regions, in
processing order. -/
def flatDescriptors : List (List Capture) → List CaptureDescriptor
  | [] => []
  | cs :: rest => cs.filterMap handledDescriptor ++ flatDescriptors rest

/-- Total refolding of the planner: add every descriptor in order. -/
def addAll (st : PlannerState) (ds : List CaptureDescriptor) : PlannerState :=
  ds.foldl addCapture st

/-- Invariant tying the four components of the planner state together. -/
def PlannerInv (st : PlannerState) : Prop :=
  (∀ id, id ∈ st.alreadyShared ↔ id ∈ st.capturesValues.map CaptureDescriptor.ident) ∧
  (st.capturesValues.map CaptureDescriptor.ident).Nodup ∧
  st.masterFields = st.capturesValues.map pointerizeField ∧
  st.warpFields = st.capturesValues.map
    (fun d => Ty.array (pointerizeField d) DS_Max_Worker_Warp_Size)

/-! ## Data sharing wrapper functions

`createDataSharingParallelWrapper` (lines 1863-2064).  At Level0 the
frame of the master thread is fetched
(`__kmpc_get_data_sharing_environment_frame(getMasterThreadID)`, lines
1934-1937) and each capture's address is
`GEP(frame, [0, Idx])` (lines 1957-1958) where `Idx` is found by linear
search over `DSI.CapturesValues` (lines 1950-1955); a by-reference
capture loads the stored pointer instead (lines 1961-1965).  At Level1
the per-warp frame of the current thread is fetched (lines 1982-1985)
and the address is `GEP(frame, [0, Idx, SourceLaneID])` (lines
2005-2006).  Finally the real outlined function is called with the
resolved addresses (lines 2029-2061). -/

/-- Symbolic values the wrapper computes for one capture. -/
inductive WrapperVal
  | masterFrameField (masterTid idx : Nat)
  | warpFrameField (tid idx lane : Nat)
  | loadFrom (v : WrapperVal)
deriving DecidableEq

/-- The linear search for a capture's offset-table index
(lines 1950-1955 and 1998-2003). -/
def captureIndex (dsi : List CaptureDescriptor) (id : Option Nat) : Nat :=
  dsi.findIdx (fun d => d.ident == id)

/-- Level0 resolution of one capture (lines 1928-1969): address of field
`Idx` in the master frame, loaded when the capture is by-reference. -/
def resolveCaptureL0 (dsi : List CaptureDescriptor) (masterTid : Nat)
    (id : Option Nat) : WrapperVal :=
  match dsi.get? (captureIndex dsi id) with
  | some d =>
      if d.dst = .DST_Ref then
        .loadFrom (.masterFrameField masterTid (captureIndex dsi id))
      else .masterFrameField masterTid (captureIndex dsi id)
  | none => .masterFrameField masterTid (captureIndex dsi id)

/-- Level1 resolution of one capture (lines 1975-2018): address of the
source lane's element of array field `Idx` in the current thread's
per-warp frame, loaded when the capture is by-reference. -/
def resolveCaptureL1 (dsi : List CaptureDescriptor) (tid lane : Nat)
    (id : Option Nat) : WrapperVal :=
  match dsi.get? (captureIndex dsi id) with
  | some d =>
      if d.dst = .DST_Ref then
        .loadFrom (.warpFrameField tid (captureIndex dsi id) lane)
      else .warpFrameField tid (captureIndex dsi id) lane
  | none => .warpFrameField tid (captureIndex dsi id) lane

/-- The call the wrapper finally emits (lines 2029-2061). -/
structure WrapperCall where
  fn : Nat
  args : List WrapperVal
deriving DecidableEq

/-- The wrapper's call to the outlined function when the Level0 path
ran. -/
def wrapperCallAtL0 (dsi : List CaptureDescriptor) (fn masterTid : Nat)
    (rc : List (Option Nat)) : WrapperCall :=
  ⟨fn, rc.map (resolveCaptureL0 dsi masterTid)⟩

/-- The wrapper's call to the outlined function when the Level1 path
ran. -/
def wrapperCallAtL1 (dsi : List CaptureDescriptor) (fn tid lane : Nat)
    (rc : List (Option Nat)) : WrapperCall :=
  ⟨fn, rc.map (resolveCaptureL1 dsi tid lane)⟩

/-- `CapturedStmt::Capture::capturesVariableArrayType`. -/
def capturesVariableArrayType : Capture → Bool
  | .vla => true
  | _ => false

/-- `CapturedStmt::Capture::capturesVariableByCopy`. -/
def capturesVariableByCopy : Capture → Bool
  | .byCopy => true
  | _ => false

/-- The head of the wrapper's capture loop (lines 1905-1912): for every
capture of the region, `assert(!CI->capturesVariableArrayType() && ...)`
and `assert(!CI->capturesVariableByCopy() && ...)`.  Unlike the
planner's string-literal asserts, these conditions are genuine, so a
VLA or by-copy capture aborts code generation here. -/
def wrapperCheckCaptures : List Capture → Option Unit
  | [] => some ()
  | c :: cs => do
      let _ ← cxxAssert (!capturesVariableArrayType c)
      let _ ← cxxAssert (!capturesVariableByCopy c)
      wrapperCheckCaptures cs

/-- Code generation for one parallel/simd region of a context:
`registerParallelContext` runs the planner over the context's regions
(lines 1021-1029), and the region's wrapper is then unconditionally
created by `emitParallelOrTeamsOutlinedFunction` /
`emitSimdOutlinedFunction` (lines 1347-1349 and 1383-1385), whose
capture loop performs the genuine asserts of lines 1910-1912.  `none`
models an aborted compilation. -/
def generateRegion (css : List (List Capture)) (rc : List Capture) :
    Option PlannerState := do
  let st ← createDataSharingInfo css
  let _ ← wrapperCheckCaptures rc
  pure st

/-! ## Parallel and simd call dispatch contents

`emitParallelCall` (lines 2162-2304) instantiates the tri-level
dispatcher with: `L0ParallelGen` — write the wrapper pointer with
`__kmpc_kernel_prepare_parallel` and cross two barriers (lines
2181-2201); `L1ParallelGen` — the convergent drain loop around
`__kmpc_kernel_convergent_parallel` (lines 2202-2264); `SeqGen` — a
serialized call of the outlined function (lines 2266-2290).
`emitSimdCall` (lines 2306-2422) instantiates it with `SeqGen` in BOTH
the Level0 and the Sequential slot (line 2421); `SeqGen` initializes
`lane_id` to 0 and `num_lanes` to 1 and calls the outlined function
inline (lines 2400-2417), while `L1SimdGen` is the convergent simd
drain loop (lines 2327-2398).  The simd wrapper likewise passes the
empty `Sequential` generator for the Level0 slot (lines 2023-2025). -/

/-- The possible contents of one dispatch section of a parallel or simd
call site. -/
inductive CallBlock
  | masterDispatch (wrapperFn : Nat)
  | convergentDrain (wrapperFn : Nat)
  | serializedCall (outlinedFn : Nat)
  | inlineSimdCall (outlinedFn laneId numLanes : Nat)
deriving DecidableEq

/-- The dispatch emitted by `emitParallelCall` (line 2294). -/
def emitParallelCallDispatch (st : StaticContext) (fn wfn : Nat) :
    Dispatch CallBlock :=
  emitParallelismLevelCode st (.masterDispatch wfn) (.convergentDrain wfn)
    (.serializedCall fn)

/-- The dispatch emitted by `emitSimdCall` (line 2421): `SeqGen` in the
Level0 and Sequential slots, the drain loop in the Level1 slot. -/
def emitSimdCallDispatch (st : StaticContext) (fn wfn : Nat) :
    Dispatch CallBlock :=
  emitParallelismLevelCode st (.inlineSimdCall fn 0 1) (.convergentDrain wfn)
    (.inlineSimdCall fn 0 1)

/-- The two behaviours of a simd wrapper dispatch section
(lines 2019-2027). -/
inductive SimdWrapperBlock
  | noSharing
  | resolveViaL1Frame
deriving DecidableEq

/-- The dispatch inside a simd wrapper (lines 2024-2025): the empty
`Sequential` generator in the Level0 and Sequential slots, the Level1
frame resolution in the Level1 slot. -/
def simdWrapperDispatch (st : StaticContext) : Dispatch SimdWrapperBlock :=
  emitParallelismLevelCode st .noSharing .resolveViaL1Frame .noSharing

/-! ## Theorems -/

theorem sub32_eq_sub (a b : Nat) (ha : a < U32) (hb : b ≤ a) :
    sub32 a b = a - b := by
  unfold sub32
  have hbU : b % U32 = b := Nat.mod_eq_of_lt (lt_of_le_of_lt hb ha)
  rw [hbU]
  have h1 : a + (U32 - b) = (a - b) + U32 := by omega
  rw [h1, Nat.add_mod_right]
  exact Nat.mod_eq_of_lt (by omega)

theorem testBit_not32_two_pow_sub_one (k i : Nat) (hk : k ≤ 32) :
    (not32 (2 ^ k - 1)).testBit i = (decide (k ≤ i) && decide (i < 32)) := by
  unfold not32 U32
  rw [Nat.testBit_xor, Nat.testBit_two_pow_sub_one, Nat.testBit_two_pow_sub_one]
  rcases Nat.lt_or_ge i k with h | h
  · simp [h, Nat.lt_of_lt_of_le h hk, Nat.not_le_of_lt h]
  · rcases Nat.lt_or_ge i 32 with h32 | h32
    · simp [h, h32, Nat.not_lt_of_le h]
    · simp [h, Nat.not_lt_of_le h32, Nat.not_lt_of_le (le_trans hk h32)]

/-- Clearing the low `k` bits of an `i32` value rounds it down to a
multiple of `2^k`. -/
theorem land_not32_mask (x k : Nat) (hx : x < U32) (hk : k ≤ 32) :
    x &&& not32 (2 ^ k - 1) = 2 ^ k * (x / 2 ^ k) := by
  apply Nat.eq_of_testBit_eq
  intro i
  rw [Nat.testBit_land, testBit_not32_two_pow_sub_one k i hk]
  have hrhs : (2 ^ k * (x / 2 ^ k)).testBit i =
      (decide (k ≤ i) && x.testBit i) := by
    rw [Nat.mul_comm, ← Nat.shiftLeft_eq, Nat.testBit_shiftLeft]
    rcases Nat.lt_or_ge i k with h | h
    · simp [Nat.not_le_of_lt h]
    · have : x / 2 ^ k = x >>> k := (Nat.shiftRight_eq_div_pow x k).symm
      rw [this, Nat.testBit_shiftRight]
      have : k + (i - k) = i := by omega
      simp [h, this]
  rw [hrhs]
  rcases Nat.lt_or_ge i 32 with h32 | h32
  · simp [h32, Bool.and_comm]
  · have : x.testBit i = false := by
      apply Nat.testBit_lt_two_pow
      exact lt_of_lt_of_le hx (Nat.pow_le_pow_right (by norm_num) h32)
    simp [this, Nat.not_lt_of_le h32]

/-- For a power-of-two warp size, the master thread id is the first lane
of the last warp: `w * ((n-1) / w)`. -/
theorem masterThreadID_eq_first_lane_of_last_warp (n k : Nat)
    (hn : 1 ≤ n) (hnU : n < U32) (hk : k ≤ 32) (hkU : 2 ^ k < U32) :
    masterThreadID n (2 ^ k) = 2 ^ k * ((n - 1) / 2 ^ k) := by
  unfold masterThreadID
  rw [sub32_eq_sub n 1 hnU hn,
      sub32_eq_sub (2 ^ k) 1 hkU (Nat.one_le_two_pow)]
  exact land_not32_mask (n - 1) k (by omega) hk

/-- Claim C3: the master thread id is `(N-1) & ~(W-1)`, the first lane of
the last warp, and the team-relative thread id is
`threadId & (MasterThreadId - 1)`; for `N = 128`, `W = 32` this gives
`MasterThreadId = 96` and team-relative id `70` for raw thread `70`. -/
theorem claim_C3_master_and_team_thread_id :
    (∀ n w, masterThreadID n w = sub32 n 1 &&& not32 (sub32 w 1)) ∧
    (∀ n w tid, teamThreadId n w tid = tid &&& sub32 (masterThreadID n w) 1) ∧
    (∀ n k, 1 ≤ n → n < U32 → k ≤ 32 → 2 ^ k < U32 →
      masterThreadID n (2 ^ k) = 2 ^ k * ((n - 1) / 2 ^ k)) ∧
    masterThreadID 128 32 = 96 ∧ teamThreadId 128 32 70 = 70 := by
  refine ⟨fun n w => rfl, fun n w tid => rfl, ?_, by decide, by decide⟩
  intro n k hn hnU hk hkU
  exact masterThreadID_eq_first_lane_of_last_warp n k hn hnU hk hkU

/-- Witness for C3: the first-lane formula evaluated at block size 128
and warp size `2^5 = 32`. -/
theorem claim_C3_master_and_team_thread_id_witness :
    masterThreadID 128 (2 ^ 5) = 2 ^ 5 * ((128 - 1) / 2 ^ 5) :=
  claim_C3_master_and_team_thread_id.2.2.1 128 5 (by norm_num)
    (by norm_num [U32]) (by norm_num) (by norm_num [U32])

theorem threadLimit_le_masterThreadID (n k : Nat) (hn : 1 ≤ n) (hnU : n < U32)
    (hk : k ≤ 32) (hkU : 2 ^ k < U32) (hw : 2 ^ k ≤ n) :
    threadLimit n (2 ^ k) ≤ masterThreadID n (2 ^ k) := by
  rw [masterThreadID_eq_first_lane_of_last_warp n k hn hnU hk hkU]
  unfold threadLimit
  rw [sub32_eq_sub n (2 ^ k) hnU hw]
  have hmod := Nat.div_add_mod (n - 1) (2 ^ k)
  have hlt : (n - 1) % 2 ^ k < 2 ^ k := Nat.mod_lt _ (Nat.pos_pow_of_pos k (by norm_num))
  omega

theorem masterThreadID_eq_threadLimit_of_dvd (n k : Nat) (hn : 1 ≤ n)
    (hnU : n < U32) (hk : k ≤ 32) (hkU : 2 ^ k < U32) (hd : 2 ^ k ∣ n) :
    masterThreadID n (2 ^ k) = threadLimit n (2 ^ k) := by
  obtain ⟨m, hm⟩ := hd
  have hkpos : 0 < 2 ^ k := Nat.pos_pow_of_pos k (by norm_num)
  have hmpos : 1 ≤ m := by
    rcases Nat.eq_zero_or_pos m with h | h
    · subst h; omega
    · exact h
  have hsplit : 2 ^ k * m = 2 ^ k * (m - 1) + 2 ^ k := by
    have : m = (m - 1) + 1 := by omega
    calc 2 ^ k * m = 2 ^ k * ((m - 1) + 1) := by rw [← this]
    _ = 2 ^ k * (m - 1) + 2 ^ k := by ring
  have hdiv : (n - 1) / 2 ^ k = m - 1 := by
    have hkey : n - 1 = 2 ^ k * (m - 1) + (2 ^ k - 1) := by omega
    rw [hkey, Nat.mul_add_div hkpos, Nat.div_eq_of_lt (by omega)]
    omega
  rw [masterThreadID_eq_first_lane_of_last_warp n k hn hnU hk hkU, hdiv]
  unfold threadLimit
  rw [sub32_eq_sub n (2 ^ k) hnU (by omega)]
  omega

/-- Counterexample for C9: with block size 33 and warp size 32 the
worker range is `[0, thread_limit) = [0, 1)`, not `[0, MasterThreadId) =
[0, 32)`: thread 1 is parked even though it lies below the master thread
id. -/
theorem claim_C9_counterexample :
    ¬ ((kernelInitRole 33 32 1 = .worker) ↔ 1 < masterThreadID 33 32) := by
  decide

/-- Claim C9 (amended): at kernel entry exactly the threads with
`tid < thread_limit = N - W` enter the worker loop; the master lane
(`tid = masterThreadID`) continues into the sequential body, and every
other thread is parked at the exit block.  The worker range coincides
with `[0, MasterThreadId)` exactly when the warp size divides the block
size. -/
theorem claim_C9_kernel_entry_partition (n k tid : Nat) (hn : 1 ≤ n)
    (hnU : n < U32) (hk : k ≤ 32) (hkU : 2 ^ k < U32) (hw : 2 ^ k ≤ n) :
    (kernelInitRole n (2 ^ k) tid = .worker ↔ tid < threadLimit n (2 ^ k)) ∧
    (kernelInitRole n (2 ^ k) tid = .master ↔ tid = masterThreadID n (2 ^ k)) ∧
    (entryContinuesSequential n (2 ^ k) tid = true ↔
      kernelInitRole n (2 ^ k) tid = .master) ∧
    (2 ^ k ∣ n →
      (kernelInitRole n (2 ^ k) tid = .worker ↔ tid < masterThreadID n (2 ^ k))) := by
  have hLM := threadLimit_le_masterThreadID n k hn hnU hk hkU hw
  have hworker : kernelInitRole n (2 ^ k) tid = .worker ↔
      tid < threadLimit n (2 ^ k) := by
    by_cases h : tid < threadLimit n (2 ^ k)
    · simp [kernelInitRole, h]
    · by_cases hm : tid = masterThreadID n (2 ^ k) <;>
        simp [kernelInitRole, h, hm]
  refine ⟨hworker, ?_, ?_, ?_⟩
  · by_cases hm : tid = masterThreadID n (2 ^ k)
    · have hnlt : ¬ tid < threadLimit n (2 ^ k) := by omega
      simp [kernelInitRole, hm, hnlt]
      exact hLM
    · by_cases h : tid < threadLimit n (2 ^ k) <;>
        simp [kernelInitRole, h, hm]
  · by_cases hr : kernelInitRole n (2 ^ k) tid = .master <;>
      simp [entryContinuesSequential, kernelInitRet, hr]
  · intro hd
    rw [hworker, masterThreadID_eq_threadLimit_of_dvd n k hn hnU hk hkU hd]

/-- Witness for C9: the amended partition evaluated at block size 128,
warp size `2^5 = 32`, thread 70 (a worker). -/
theorem claim_C9_kernel_entry_partition_witness :
    kernelInitRole 128 (2 ^ 5) 70 = .worker ↔ 70 < threadLimit 128 (2 ^ 5) :=
  (claim_C9_kernel_entry_partition 128 5 70 (by norm_num) (by norm_num [U32])
    (by norm_num) (by norm_num [U32]) (by norm_num)).1

theorem workerRun_terminated (work : List Nat) (master : Nat)
    (is : List WorkerInput) :
    workerRun work master is .terminated = ([], .terminated) := by
  cases is <;> rfl

theorem matchAndInvoke_of_mem (work : List Nat) (f master : Nat)
    (h : f ∈ work) : matchAndInvoke work f master = [.invoke f master] := by
  induction work with
  | nil => cases h
  | cons w ws ih =>
      by_cases hw : f = w
      · subst hw; simp [matchAndInvoke]
      · have : f ∈ ws := by
          cases h with
          | head => exact absurd rfl hw
          | tail _ h' => exact h'
        simp [matchAndInvoke, hw, ih this]

/-- Claim C4: every worker-loop iteration first barrier-waits and then
reads the work-function pointer and active flag; a null pointer sends
the worker to the exit block within that one barrier crossing and it
never re-enters the await state; an active worker linearly matches the
pointer against the statically known outlined functions, invokes the
match with the master's thread id as the logical source lane, signals
end of parallel, crosses a second barrier and resumes awaiting; an
inactive worker crosses the second barrier without invoking anything. -/
theorem claim_C4_worker_loop (work : List Nat) (master f : Nat)
    (b : Bool) (rest : List WorkerInput) :
    (∀ inp, (workerIteration work master inp).1.take 2 = [.barrier, .readWork]) ∧
    workerRun work master (⟨none, b⟩ :: rest) .await =
      ([.barrier, .readWork], .terminated) ∧
    (f ∈ work → workerIteration work master ⟨some f, true⟩ =
      ([.barrier, .readWork, .invoke f master, .endParallel, .barrier], .await)) ∧
    workerIteration work master ⟨some f, false⟩ =
      ([.barrier, .readWork, .barrier], .await) := by
  refine ⟨?_, ?_, ?_, rfl⟩
  · rintro ⟨wf, act⟩
    cases wf with
    | none => rfl
    | some g => cases act <;> simp [workerIteration]
  · show (let r := workerIteration work master ⟨none, b⟩
      let r' := workerRun work master rest r.2
      (r.1 ++ r'.1, r'.2)) = ([.barrier, .readWork], .terminated)
    simp [workerIteration, workerRun_terminated]
  · intro hmem
    simp [workerIteration, matchAndInvoke_of_mem work f master hmem]

/-- Witness for C4: a worker servicing the known outlined function 7
with master thread id 96. -/
theorem claim_C4_worker_loop_witness :
    workerIteration [7] 96 ⟨some 7, true⟩ =
      ([.barrier, .readWork, .invoke 7 96, .endParallel, .barrier], .await) :=
  (claim_C4_worker_loop [7] 96 7 true []).2.2.1 (by decide)

theorem runLevelProg_emit_eq (env : Nat → Bool) (t : RegionTree) (l : Int) :
    runLevelProg env (emitLevelCode t) l = l := by
  induction t generalizing l with
  | skip => rfl
  | branch c a b iha ihb =>
      by_cases h : env c <;> simp [emitLevelCode, runLevelProg, h, iha, ihb]
  | seq a b iha ihb => simp [emitLevelCode, runLevelProg, iha, ihb]
  | region isSimd body ih => simp [emitLevelCode, runLevelProg, ih]

/-- Claim C2: the ParallelismLevel counter is 0 for every lane at kernel
start; entering a parallel region body increments it by exactly 1 and a
simd region body by exactly 10; and the emitted bracketing returns the
counter to its prior value after the region regardless of internal
control flow. -/
theorem claim_C2_parallelism_level_counter :
    (∀ i, parallelismLevelInit i = 0) ∧
    parallelismIncrement false = 1 ∧ parallelismIncrement true = 10 ∧
    (∀ isSimd body, emitLevelCode (.region isSimd body) =
      .seq (.inc (parallelismIncrement isSimd))
        (.seq (emitLevelCode body) (.dec (parallelismIncrement isSimd)))) ∧
    (∀ env t l, runLevelProg env (emitLevelCode t) l = l) :=
  ⟨fun _ => rfl, rfl, rfl, fun _ _ => rfl, runLevelProg_emit_eq⟩

theorem processCapture_eq (st : PlannerState) (c : Capture) :
    processCapture st c = some (match handledDescriptor c with
      | none => st
      | some d => addCapture st d) := by
  cases c <;> rfl

theorem processCaptures_eq (cs : List Capture) (st : PlannerState) :
    processCaptures st cs = some (addAll st (cs.filterMap handledDescriptor)) := by
  induction cs generalizing st with
  | nil => rfl
  | cons c cs ih =>
      show (processCapture st c).bind _ = _
      rw [processCapture_eq]
      cases hc : handledDescriptor c with
      | none => simp only [hc, Option.bind_some, List.filterMap_cons_none hc]; exact ih st
      | some d =>
          simp only [hc, Option.bind_some, List.filterMap_cons_some hc]
          exact ih (addCapture st d)

theorem processRegions_eq (css : List (List Capture)) (st : PlannerState) :
    processRegions st css = some (addAll st (flatDescriptors css)) := by
  induction css generalizing st with
  | nil => rfl
  | cons cs rest ih =>
      show (processCaptures st cs).bind _ = _
      rw [processCaptures_eq]
      simp only [Option.bind_some, flatDescriptors, addAll, List.foldl_append]
      exact ih (addAll st (cs.filterMap handledDescriptor))

theorem plannerInv_init : PlannerInv plannerInit := by
  refine ⟨?_, ?_, rfl, rfl⟩ <;> simp [plannerInit]

theorem plannerInv_addCapture (st : PlannerState) (d : CaptureDescriptor)
    (h : PlannerInv st) : PlannerInv (addCapture st d) := by
  obtain ⟨hmem, hnd, hm, hw⟩ := h
  by_cases hd : d.ident ∈ st.alreadyShared
  · simpa [addCapture, hd] using ⟨hmem, hnd, hm, hw⟩
  · have hdnot : d.ident ∉ st.capturesValues.map CaptureDescriptor.ident :=
      fun hc => hd ((hmem d.ident).2 hc)
    refine ⟨?_, ?_, ?_, ?_⟩
    · intro id
      simp only [addCapture, if_neg hd, List.mem_cons, List.map_append,
        List.mem_append, List.map_cons, List.map_nil, List.mem_singleton]
      rw [hmem id]
      tauto
    · simp only [addCapture, if_neg hd, List.map_append, List.map_cons, List.map_nil]
      simp [List.nodup_append, hnd, hdnot]
    · simp [addCapture, if_neg hd, hm]
    · simp [addCapture, if_neg hd, hw]

theorem plannerInv_addAll (ds : List CaptureDescriptor) (st : PlannerState)
    (h : PlannerInv st) : PlannerInv (addAll st ds) := by
  induction ds generalizing st with
  | nil => exact h
  | cons d ds ih => exact ih (addCapture st d) (plannerInv_addCapture st d h)

theorem addAll_captures_prefix (ds : List CaptureDescriptor) (st : PlannerState) :
    ∃ tail, (addAll st ds).capturesValues = st.capturesValues ++ tail := by
  induction ds generalizing st with
  | nil => exact ⟨[], by simp [addAll]⟩
  | cons d ds ih =>
      obtain ⟨t, ht⟩ := ih (addCapture st d)
      show ∃ tail, (addAll (addCapture st d) ds).capturesValues = _
      by_cases hd : d.ident ∈ st.alreadyShared
      · refine ⟨t, ?_⟩
        rw [ht]
        simp [addCapture, hd]
      · refine ⟨d :: t, ?_⟩
        rw [ht]
        simp [addCapture, hd]

theorem addAll_mem_ident (ds : List CaptureDescriptor) (st : PlannerState)
    (hinv : PlannerInv st) (id : Option Nat) :
    id ∈ (addAll st ds).capturesValues.map CaptureDescriptor.ident ↔
      (id ∈ st.capturesValues.map CaptureDescriptor.ident ∨
        id ∈ ds.map CaptureDescriptor.ident) := by
  induction ds generalizing st with
  | nil => simp [addAll]
  | cons d ds ih =>
      show id ∈ (addAll (addCapture st d) ds).capturesValues.map _ ↔ _
      rw [ih (addCapture st d) (plannerInv_addCapture st d hinv)]
      by_cases hd : d.ident ∈ st.alreadyShared
      · have hdm : d.ident ∈ st.capturesValues.map CaptureDescriptor.ident :=
          (hinv.1 d.ident).1 hd
        simp only [addCapture, if_pos hd, List.map_cons, List.mem_cons]
        constructor
        · tauto
        · rintro (h | h | h)
          · exact Or.inl h
          · exact Or.inl (h ▸ hdm)
          · exact Or.inr h
      · simp only [addCapture, if_neg hd, List.map_append, List.mem_append,
          List.map_cons, List.map_nil, List.mem_singleton, List.mem_cons]
        tauto

theorem addAll_new_not_in_prefix (ds : List CaptureDescriptor)
    (st : PlannerState) (hinv : PlannerInv st) (d : CaptureDescriptor)
    (hd : d ∈ (addAll st ds).capturesValues) (hnot : d ∉ st.capturesValues) :
    d.ident ∉ st.capturesValues.map CaptureDescriptor.ident := by
  intro hmem
  obtain ⟨e, he, hident⟩ := List.mem_map.mp hmem
  obtain ⟨t, ht⟩ := addAll_captures_prefix ds st
  have hres := plannerInv_addAll ds st hinv
  have he' : e ∈ (addAll st ds).capturesValues := by
    rw [ht]; exact List.mem_append_left _ he
  have : e = d := List.inj_on_of_nodup_map hres.2.1 he' hd hident
  exact hnot (this ▸ he)

theorem addAll_find_first (ds : List CaptureDescriptor) (st : PlannerState)
    (hinv : PlannerInv st) (d : CaptureDescriptor)
    (hd : d ∈ (addAll st ds).capturesValues) (hnot : d ∉ st.capturesValues) :
    ds.find? (fun e => e.ident == d.ident) = some d := by
  induction ds generalizing st with
  | nil => exact absurd hd hnot
  | cons e ds ih =>
      have hinv' := plannerInv_addCapture st e hinv
      have hd' : d ∈ (addAll (addCapture st e) ds).capturesValues := hd
      by_cases he : e.ident ∈ st.alreadyShared
      · have hst : addCapture st e = st := by simp [addCapture, he]
        rw [hst] at hd' hinv'
        have hdnotid := addAll_new_not_in_prefix ds st hinv d hd' hnot
        have hne : (e.ident == d.ident) = false := by
          rw [beq_eq_false_iff_ne]
          intro hEq
          exact hdnotid (hEq ▸ (hinv.1 e.ident).1 he)
        rw [List.find?_cons_of_neg _ (by simp [hne])]
        exact ih st hinv hd' hnot
      · by_cases hde : d = e
        · subst hde
          exact List.find?_cons_of_pos _ (by simp)
        · have hdnotst' : d ∉ (addCapture st e).capturesValues := by
            simp only [addCapture, if_neg he, List.mem_append, List.mem_singleton]
            rintro (h | h)
            · exact hnot h
            · exact hde h
          have hfind := ih (addCapture st e) hinv' hd' hdnotst'
          have hdnotid' := addAll_new_not_in_prefix ds (addCapture st e) hinv' d hd' hdnotst'
          have heMem : e.ident ∈ (addCapture st e).capturesValues.map
              CaptureDescriptor.ident := by
            simp [addCapture, if_neg he]
          have hne : (e.ident == d.ident) = false := by
            rw [beq_eq_false_iff_ne]
            intro hEq
            exact hdnotid' (hEq ▸ heMem)
          rw [List.find?_cons_of_neg _ (by simp [hne])]
          exact hfind

theorem createDataSharingInfo_eq_addAll (css : List (List Capture))
    (st : PlannerState) (h : createDataSharingInfo css = some st) :
    st = addAll plannerInit (flatDescriptors css) := by
  rw [createDataSharingInfo, processRegions_eq] at h
  exact (Option.some.inj h).symm

/-- Claim C5: the planner produces exactly one `CaptureDescriptor` per
distinct captured identity of the context: the produced identities are
duplicate-free, an identity appears iff some nested region captures it
(with a supported kind), and each produced descriptor is the first
occurrence of its identity in the region-by-region capture stream. -/
theorem claim_C5_capture_dedup (css : List (List Capture)) (st : PlannerState)
    (h : createDataSharingInfo css = some st) :
    (st.capturesValues.map CaptureDescriptor.ident).Nodup ∧
    (∀ id, id ∈ st.capturesValues.map CaptureDescriptor.ident ↔
      id ∈ (flatDescriptors css).map CaptureDescriptor.ident) ∧
    ∀ d ∈ st.capturesValues,
      (flatDescriptors css).find? (fun e => e.ident == d.ident) = some d := by
  have heq := createDataSharingInfo_eq_addAll css st h
  subst heq
  refine ⟨(plannerInv_addAll _ _ plannerInv_init).2.1, ?_, ?_⟩
  · intro id
    rw [addAll_mem_ident _ _ plannerInv_init id]
    simp [plannerInit]
  · intro d hd
    exact addAll_find_first _ _ plannerInv_init d hd (by simp [plannerInit])

/-- Witness for C5: the variable 0 is captured by two nested regions of
the same context yet appears exactly once, under its first occurrence's
classification. -/
theorem claim_C5_capture_dedup_witness :
    (flatDescriptors [[.var 0 .alloca .int, .var 1 .load .int],
        [.var 0 .load .int]]).find?
      (fun e => e.ident == (some 0 : Option Nat)) =
      some ⟨some 0, .DST_Val, .int⟩ :=
  (claim_C5_capture_dedup
    [[.var 0 .alloca .int, .var 1 .load .int], [.var 0 .load .int]] _ rfl).2.2
    ⟨some 0, .DST_Val, .int⟩ (by decide)

/-- Claim C6: the synthesized master layout has one field per capture
(pointer-typed exactly for by-reference captures), the warp layout has
one 32-element array field per capture whose element type is the
corresponding master field, and the two layouts have identical field
ordering; in particular for captures `x:int` (by-value-address) and
`y:int&` (by-reference) the layouts are `{int; int*}` and
`{int[32]; int*[32]}`. -/
theorem claim_C6_layout_shape (css : List (List Capture)) (st : PlannerState)
    (h : createDataSharingInfo css = some st) :
    st.masterFields = st.capturesValues.map pointerizeField ∧
    st.warpFields = st.masterFields.map
      (fun t => Ty.array t DS_Max_Worker_Warp_Size) ∧
    st.masterFields.length = st.capturesValues.length ∧
    st.warpFields.length = st.capturesValues.length ∧
    (∀ d ∈ st.capturesValues, d.dst = .DST_Ref → pointerizeField d = .ptr d.elemTy) ∧
    (∀ d ∈ st.capturesValues, d.dst ≠ .DST_Ref → pointerizeField d = d.elemTy) ∧
    createDataSharingInfo [[.var 0 .alloca .int, .var 1 .load .int]] =
      some ⟨[some 1, some 0],
        [⟨some 0, .DST_Val, .int⟩, ⟨some 1, .DST_Ref, .int⟩],
        [.int, .ptr .int],
        [.array .int 32, .array (.ptr .int) 32]⟩ := by
  have heq := createDataSharingInfo_eq_addAll css st h
  subst heq
  have hinv := plannerInv_addAll (flatDescriptors css) plannerInit plannerInv_init
  refine ⟨hinv.2.2.1, ?_, ?_, ?_, ?_, ?_, rfl⟩
  · rw [hinv.2.2.2, hinv.2.2.1, List.map_map]
    rfl
  · rw [hinv.2.2.1, List.length_map]
  · rw [hinv.2.2.2, List.length_map]
  · intro d _ hdst
    simp [pointerizeField, hdst]
  · intro d _ hdst
    simp [pointerizeField, hdst]

/-- Witness for C6: the two layouts of the example context share their
field ordering, the warp fields being 32-element arrays of the master
fields. -/
theorem claim_C6_layout_shape_witness :
    (⟨[some 1, some 0],
        [⟨some 0, .DST_Val, .int⟩, ⟨some 1, .DST_Ref, .int⟩],
        [.int, .ptr .int],
        [.array .int 32, .array (.ptr .int) 32]⟩ : PlannerState).warpFields =
      (⟨[some 1, some 0],
        [⟨some 0, .DST_Val, .int⟩, ⟨some 1, .DST_Ref, .int⟩],
        [.int, .ptr .int],
        [.array .int 32, .array (.ptr .int) 32]⟩ : PlannerState).masterFields.map
        (fun t => Ty.array t DS_Max_Worker_Warp_Size) :=
  (claim_C6_layout_shape [[.var 0 .alloca .int, .var 1 .load .int]] _ rfl).2.1

/-- The planner alone does not reject unsupported captures: its
`assert` statements test a string literal — always true — so it skips
the captures by `continue` and produces layouts without them
(lines 1494-1503).  The abort for such captures happens in the
wrapper's capture loop instead. -/
theorem planner_skips_unsupported_captures :
    createDataSharingInfo [[.vla, .byCopy, .var 0 .alloca .int]] =
      some ⟨[some 0], [⟨some 0, .DST_Val, .int⟩], [.int], [.array .int 32]⟩ ∧
    cxxAssert stringLiteralCond = some () :=
  ⟨rfl, rfl⟩

theorem wrapperCheckCaptures_none (rc : List Capture) (c : Capture)
    (hc : c ∈ rc)
    (h : capturesVariableArrayType c = true ∨ capturesVariableByCopy c = true) :
    wrapperCheckCaptures rc = none := by
  induction rc with
  | nil => cases hc
  | cons d ds ih =>
      rcases List.mem_cons.mp hc with rfl | hmem
      · rcases h with h | h
        · cases c <;> simp_all [wrapperCheckCaptures, cxxAssert,
            capturesVariableArrayType, capturesVariableByCopy]
        · cases c <;> simp_all [wrapperCheckCaptures, cxxAssert,
            capturesVariableArrayType, capturesVariableByCopy]
      · cases hva : capturesVariableArrayType d <;>
          cases hvc : capturesVariableByCopy d <;>
          simp [wrapperCheckCaptures, cxxAssert, hva, hvc, ih hmem]

/-- Claim C8: a capture the planner cannot handle — a variable-length
array capture or a by-copy capture — makes code generation abort at
compile time, with no degraded code path for that region: the planner's
own asserts are vacuous, but the region's wrapper is created
unconditionally and its capture loop's genuine asserts (lines
1910-1912) reject exactly these capture kinds. -/
theorem claim_C8_abort_on_unsupported (css : List (List Capture))
    (rc : List Capture) (c : Capture) (hc : c ∈ rc)
    (h : capturesVariableArrayType c = true ∨ capturesVariableByCopy c = true) :
    generateRegion css rc = none := by
  unfold generateRegion
  cases hcss : createDataSharingInfo css with
  | none => rfl
  | some st =>
      show ((wrapperCheckCaptures rc).bind fun _ => some st) = none
      rw [wrapperCheckCaptures_none rc c hc h]
      rfl

/-- Witness for C8: generating a region whose capture list contains a
VLA capture aborts. -/
theorem claim_C8_abort_on_unsupported_witness :
    generateRegion [[.vla, .var 0 .alloca .int]] [.vla, .var 0 .alloca .int] =
      none :=
  claim_C8_abort_on_unsupported [[.vla, .var 0 .alloca .int]]
    [.vla, .var 0 .alloca .int] .vla (by decide) (Or.inl (by decide))

/-- Claim C7: for every capture of the region, the wrapper locates the
capture's entry in the enclosing context's offset table — the first
entry of that identity, found by linear search — and resolves the
argument as the master-frame field address at Level0 or the per-warp
frame field indexed by the source lane at Level1, loading the shared
pointer instead when the capture is by-reference; the real outlined
function is called with exactly these resolved values. -/
theorem claim_C7_wrapper_resolution (dsi : List CaptureDescriptor)
    (masterTid tid lane fn : Nat) (rc : List (Option Nat))
    (hmem : ∀ id ∈ rc, id ∈ dsi.map CaptureDescriptor.ident) :
    (∀ id ∈ rc, ∃ i d, dsi.get? i = some d ∧ d.ident = id ∧
      (∀ j e, j < i → dsi.get? j = some e → e.ident ≠ id) ∧
      resolveCaptureL0 dsi masterTid id =
        (if d.dst = .DST_Ref then .loadFrom (.masterFrameField masterTid i)
         else .masterFrameField masterTid i) ∧
      resolveCaptureL1 dsi tid lane id =
        (if d.dst = .DST_Ref then .loadFrom (.warpFrameField tid i lane)
         else .warpFrameField tid i lane)) ∧
    (wrapperCallAtL0 dsi fn masterTid rc).args =
      rc.map (resolveCaptureL0 dsi masterTid) ∧
    (wrapperCallAtL1 dsi fn tid lane rc).args =
      rc.map (resolveCaptureL1 dsi tid lane) := by
  refine ⟨?_, rfl, rfl⟩
  intro id hid
  have hex : ∃ x ∈ dsi, (fun d : CaptureDescriptor => d.ident == id) x = true := by
    obtain ⟨d, hd, hident⟩ := List.mem_map.mp (hmem id hid)
    exact ⟨d, hd, by simp [hident]⟩
  have hlt : dsi.findIdx (fun d => d.ident == id) < dsi.length :=
    List.findIdx_lt_length_of_exists hex
  have hip : (fun d : CaptureDescriptor => d.ident == id)
      (dsi.get ⟨dsi.findIdx (fun d => d.ident == id), hlt⟩) = true := by
    simpa using List.findIdx_getElem (w := hlt)
  have hget : dsi.get? (captureIndex dsi id) =
      some (dsi.get ⟨dsi.findIdx (fun d => d.ident == id), hlt⟩) := by
    rw [captureIndex, List.get?_eq_getElem?, List.getElem?_eq_getElem hlt]
    simp
  refine ⟨captureIndex dsi id,
    dsi.get ⟨dsi.findIdx (fun d => d.ident == id), hlt⟩, hget, ?_, ?_, ?_, ?_⟩
  · exact eq_of_beq hip
  · intro j e hj hje
    have hjlt : j < dsi.length := lt_trans hj hlt
    have hje' : e = dsi.get ⟨j, hjlt⟩ := by
      rw [List.get?_eq_getElem?, List.getElem?_eq_getElem hjlt] at hje
      simpa using (Option.some.inj hje).symm
    have hfalse : (fun d : CaptureDescriptor => d.ident == id)
        (dsi.get ⟨j, hjlt⟩) = false := by
      simpa using List.not_of_lt_findIdx (hj : j < dsi.findIdx fun d => d.ident == id)
    rw [hje']
    intro hEq
    simp only [hEq] at hfalse
    simp at hfalse
  · rw [resolveCaptureL0, hget]
  · rw [resolveCaptureL1, hget]

/-- Witness for C7: the wrapper's Level0 call of outlined function 7 in
a context whose offset table holds captures `some 0` and `some 1`, the
region capturing `some 1` by reference. -/
theorem claim_C7_wrapper_resolution_witness :
    (wrapperCallAtL0 [⟨some 0, .DST_Val, .int⟩, ⟨some 1, .DST_Ref, .int⟩]
        7 96 [some 1]).args =
      [some 1].map (resolveCaptureL0
        [⟨some 0, .DST_Val, .int⟩, ⟨some 1, .DST_Ref, .int⟩] 96) :=
  (claim_C7_wrapper_resolution
    [⟨some 0, .DST_Val, .int⟩, ⟨some 1, .DST_Ref, .int⟩]
    96 5 3 7 [some 1] (by decide)).2.1

theorem ite_none_eq_some {c : Prop} [Decidable c] {β : Type} {a b : β}
    (h : (if c then some a else none) = some b) : a = b := by
  by_cases hc : c
  · rw [if_pos hc] at h
    exact Option.some.inj h
  · rw [if_neg hc] at h
    exact absurd h (by simp)

theorem mem_execFromSequential_get {α : Type} (d : Dispatch α) (ln : Lane)
    (x : LevelSlot × α) (hx : x ∈ execFromSequential d ln) :
    ∃ g, d.get x.1 = some (g, x.2) := by
  unfold execFromSequential at hx
  cases hs : d.sequential with
  | none => rw [hs] at hx; simp at hx
  | some p =>
      obtain ⟨g, a⟩ := p
      rw [hs] at hx
      have hx' : x ∈ if (g && !(decide (1 < ln.level))) = true then
          ([] : List (LevelSlot × α)) else [(.sequential, a)] := hx
      by_cases hc : (g && !(decide (1 < ln.level))) = true
      · rw [if_pos hc] at hx'; simp at hx'
      · rw [if_neg hc] at hx'
        simp only [List.mem_singleton] at hx'
        subst hx'
        exact ⟨g, by simp [Dispatch.get, hs]⟩

theorem mem_execFromLevel1_get {α : Type} (d : Dispatch α) (ln : Lane)
    (x : LevelSlot × α) (hx : x ∈ execFromLevel1 d ln) :
    ∃ g, d.get x.1 = some (g, x.2) := by
  unfold execFromLevel1 at hx
  cases hs : d.level1 with
  | none => rw [hs] at hx; exact mem_execFromSequential_get d ln x hx
  | some p =>
      obtain ⟨g, a⟩ := p
      rw [hs] at hx
      have hx' : x ∈ if (g && !(decide (ln.level = 1))) = true then
          execFromSequential d ln else [(.level1, a)] := hx
      by_cases hc : (g && !(decide (ln.level = 1))) = true
      · rw [if_pos hc] at hx'; exact mem_execFromSequential_get d ln x hx'
      · rw [if_neg hc] at hx'
        simp only [List.mem_singleton] at hx'
        subst hx'
        exact ⟨g, by simp [Dispatch.get, hs]⟩

/-- Every block a lane executes comes from an emitted dispatch section
of the same slot. -/
theorem mem_executedBlocks_get {α : Type} (d : Dispatch α) (ln : Lane)
    (x : LevelSlot × α) (hx : x ∈ executedBlocks d ln) :
    ∃ g, d.get x.1 = some (g, x.2) := by
  unfold executedBlocks at hx
  cases hs : d.level0 with
  | none => rw [hs] at hx; exact mem_execFromLevel1_get d ln x hx
  | some p =>
      obtain ⟨g, a⟩ := p
      rw [hs] at hx
      have hx' : x ∈ if (g && !(decide (ln.tid = ln.masterTid))) = true then
          execFromLevel1 d ln else [(.level0, a)] := hx
      by_cases hc : (g && !(decide (ln.tid = ln.masterTid))) = true
      · rw [if_pos hc] at hx'; exact mem_execFromLevel1_get d ln x hx'
      · rw [if_neg hc] at hx'
        simp only [List.mem_singleton] at hx'
        subst hx'
        exact ⟨g, by simp [Dispatch.get, hs]⟩

/-- Claim C10: a simd construct never emits a Level0 master dispatch:
every emitted section is either the convergent drain loop — and that
exactly in the `ParallelismLevel == 1` slot — or the inline invocation
of the outlined simd function with `laneId = 0` and `numLanes = 1`;
every block any lane executes at runtime comes from those sections; and
the simd wrapper resolves shared capture addresses only in its Level1
section. -/
theorem claim_C10_simd_dispatch (st : StaticContext) (fn wfn : Nat) :
    (∀ s g b, (emitSimdCallDispatch st fn wfn).get s = some (g, b) →
      (∀ w, b ≠ .masterDispatch w) ∧
      (b = .convergentDrain wfn ↔ s = .level1) ∧
      (s ≠ .level1 → b = .inlineSimdCall fn 0 1)) ∧
    (∀ ln x, x ∈ executedBlocks (emitSimdCallDispatch st fn wfn) ln →
      ∃ g, (emitSimdCallDispatch st fn wfn).get x.1 = some (g, x.2)) ∧
    (∀ s g b, (simdWrapperDispatch st).get s = some (g, b) →
      (b = .resolveViaL1Frame ↔ s = .level1)) := by
  refine ⟨?_, fun ln x hx => mem_executedBlocks_get _ ln x hx, ?_⟩
  · intro s g b hg
    cases s
    · simp only [emitSimdCallDispatch, emitParallelismLevelCode, Dispatch.get] at hg
      injection ite_none_eq_some hg with hga hgb
      subst hgb
      exact ⟨by simp, by simp, fun _ => rfl⟩
    · simp only [emitSimdCallDispatch, emitParallelismLevelCode, Dispatch.get] at hg
      injection ite_none_eq_some hg with hga hgb
      subst hgb
      exact ⟨by simp, by simp, by simp⟩
    · simp only [emitSimdCallDispatch, emitParallelismLevelCode, Dispatch.get] at hg
      injection ite_none_eq_some hg with hga hgb
      subst hgb
      exact ⟨by simp, by simp, fun _ => rfl⟩
  · intro s g b hg
    cases s
    · simp only [simdWrapperDispatch, emitParallelismLevelCode, Dispatch.get] at hg
      injection ite_none_eq_some hg with hga hgb
      subst hgb
      simp
    · simp only [simdWrapperDispatch, emitParallelismLevelCode, Dispatch.get] at hg
      injection ite_none_eq_some hg with hga hgb
      subst hgb
      simp
    · simp only [simdWrapperDispatch, emitParallelismLevelCode, Dispatch.get] at hg
      injection ite_none_eq_some hg with hga hgb
      subst hgb
      simp

/-- Witness for C10: in an orphaned context all three sections exist;
the Level0 section of a simd call holds the inline invocation with
`laneId = 0`, `numLanes = 1`. -/
theorem claim_C10_simd_dispatch_witness :
    (∀ w, CallBlock.inlineSimdCall 3 0 1 ≠ .masterDispatch w) ∧
    (CallBlock.inlineSimdCall 3 0 1 = .convergentDrain 5 ↔
      LevelSlot.level0 = .level1) ∧
    (LevelSlot.level0 ≠ .level1 → CallBlock.inlineSimdCall 3 0 1 =
      .inlineSimdCall 3 0 1) :=
  (claim_C10_simd_dispatch ⟨true, 0⟩ 3 5).1 .level0 true
    (.inlineSimdCall 3 0 1) (by rfl)

/-- Claim C1: for every construct lowered through
`emitParallelismLevelCode`, (a) a section is omitted exactly when the
static nesting information disproves membership at its level, (b) an
emitted section's runtime guard is omitted exactly when the static
information proves membership, and (c) every lane that is the master
lane or has runtime nesting level at least 1 executes exactly one of the
three blocks, all rejoining at the single continuation block. -/
theorem claim_C1_tri_level_dispatch {α : Type} (b0 b1 bs : α) (st : StaticContext) :
    (∀ s : LevelSlot,
      ((emitParallelismLevelCode st b0 b1 bs).get s = none ↔ staticDisproves st s) ∧
      ∀ g x, (emitParallelismLevelCode st b0 b1 bs).get s = some (g, x) →
        ((g = false) ↔ staticProves st s)) ∧
    ∀ ln : Lane, (ln.tid = ln.masterTid ∨ 1 ≤ ln.level) →
      (executedBlocks (emitParallelismLevelCode st b0 b1 bs) ln).length = 1 := by
  obtain ⟨orph, lvl⟩ := st
  have hc : orph = true ∨ (orph = false ∧ lvl = 0) ∨ (orph = false ∧ lvl = 1) ∨
      (orph = false ∧ lvl ≠ 0 ∧ lvl ≠ 1) := by
    cases orph
    · by_cases h0 : lvl = 0
      · exact Or.inr (Or.inl ⟨rfl, h0⟩)
      · by_cases h1 : lvl = 1
        · exact Or.inr (Or.inr (Or.inl ⟨rfl, h1⟩))
        · exact Or.inr (Or.inr (Or.inr ⟨rfl, h0, h1⟩))
    · exact Or.inl rfl
  rcases hc with h | ⟨h, h0⟩ | ⟨h, h1⟩ | ⟨h, h0, h1⟩
  all_goals subst h
  · -- orphaned: all three sections emitted, all guarded
    constructor
    · intro s
      cases s <;>
        simp [emitParallelismLevelCode, InL0, InL1, Dispatch.get,
          staticProves, staticDisproves, slotStaticLevel]
    · intro ln hln
      simp only [emitParallelismLevelCode, InL0, InL1]
      by_cases hm : ln.tid = ln.masterTid
      · simp [executedBlocks, hm]
      · by_cases hl1 : ln.level = 1
        · simp [executedBlocks, execFromLevel1, hm, hl1]
        · have hgt : 1 < ln.level := by
            rcases hln with hln | hln
            · exact absurd hln hm
            · omega
          simp [executedBlocks, execFromLevel1, execFromSequential, hm, hl1, hgt]
  · -- statically proved Level0: only the unguarded Level0 section
    subst h0
    constructor
    · intro s
      cases s <;>
        simp [emitParallelismLevelCode, InL0, InL1, Dispatch.get,
          staticProves, staticDisproves, slotStaticLevel]
    · intro ln _
      simp [emitParallelismLevelCode, InL0, InL1, executedBlocks]
  · -- statically proved Level1: only the unguarded Level1 section
    subst h1
    constructor
    · intro s
      cases s <;>
        simp [emitParallelismLevelCode, InL0, InL1, Dispatch.get,
          staticProves, staticDisproves, slotStaticLevel]
    · intro ln _
      simp [emitParallelismLevelCode, InL0, InL1, executedBlocks, execFromLevel1]
  · -- statically proved sequential: only the unguarded sequential section
    constructor
    · intro s
      cases s <;>
        simp [emitParallelismLevelCode, InL0, InL1, Dispatch.get,
          staticProves, staticDisproves, slotStaticLevel, h0, h1]
    · intro ln _
      simp [emitParallelismLevelCode, InL0, InL1, executedBlocks, execFromLevel1,
        execFromSequential, h0, h1]

/-- Witness for C1: concrete evaluation at an orphaned context and a
non-master lane at runtime level 1. -/
theorem claim_C1_tri_level_dispatch_witness :
    (executedBlocks
      (emitParallelismLevelCode ⟨true, 0⟩ (0 : Nat) 1 2) ⟨3, 96, 1⟩).length = 1 :=
  (claim_C1_tri_level_dispatch 0 1 2 ⟨true, 0⟩).2 ⟨3, 96, 1⟩ (Or.inr (by decide))

end NVPTX
